import Mathlib

/-!
Shallow embedding of `src/burn-wgpu/src/compute/base.rs`: adapter selection,
device bootstrap wiring, configuration parsing for the wgpu compute backend,
and the process-wide compute registry (the latter modelled from the spec,
since `burn_compute::Compute` is not part of this repository's sources).
-/

deriving instance DecidableEq for Except

namespace BurnWgpu

/-- `wgpu::DeviceType`: the category an enumerated adapter reports. -/
inductive DeviceType where
  | DiscreteGpu
  | IntegratedGpu
  | VirtualGpu
  | Cpu
  | Other
deriving DecidableEq

/-- `WgpuDevice`: the logical device descriptor used as the registry key. -/
inductive WgpuDevice where
  | DiscreteGpu (index : Nat)
  | IntegratedGpu (index : Nat)
  | VirtualGpu (index : Nat)
  | Cpu
  | BestAvailable
deriving DecidableEq

/-- `wgpu::AdapterInfo`: the metadata `adapter.get_info()` reports. -/
structure AdapterInfo where
  device_type : DeviceType
  description : String
deriving DecidableEq

/-- A `wgpu::Adapter`: its reported info plus the limits it advertises
(`adapter.limits()`, kept abstract as a token). -/
structure Adapter where
  info : AdapterInfo
  limits : Nat
deriving DecidableEq

/-- The `is_same_type` test of the enumeration loop in `select_adapter`
(`base.rs` lines 104-110). -/
def is_same_type (device : WgpuDevice) (device_type : DeviceType) : Bool :=
  match device with
  | WgpuDevice.DiscreteGpu _ => device_type == DeviceType.DiscreteGpu
  | WgpuDevice.IntegratedGpu _ => device_type == DeviceType.IntegratedGpu
  | WgpuDevice.VirtualGpu _ => device_type == DeviceType.VirtualGpu
  | WgpuDevice.Cpu => device_type == DeviceType.Cpu
  | WgpuDevice.BestAvailable => true

/-- One iteration of the enumeration loop of `select_adapter` (`base.rs`
lines 96-115): an adapter whose category is `Other` is pushed to
`adapters_other`; otherwise it is pushed to `adapters` when `is_same_type`
holds. The pair is `(adapters, adapters_other)`. -/
def bucket_step (device : WgpuDevice) (acc : List Adapter × List Adapter)
    (adapter : Adapter) : List Adapter × List Adapter :=
  let device_type := adapter.info.device_type
  if device_type = DeviceType.Other then (acc.1, acc.2 ++ [adapter])
  else if is_same_type device device_type then (acc.1 ++ [adapter], acc.2)
  else acc

/-- The enumeration loop of `select_adapter` (`base.rs` lines 94-115):
returns `(adapters, adapters_other)` in enumeration order. -/
def buckets (device : WgpuDevice) (enumerated : List Adapter) :
    List Adapter × List Adapter :=
  enumerated.foldl (bucket_step device) ([], [])

/-- Membership test of the primary bucket: a classified adapter whose
category matches the logical device. -/
def in_primary (device : WgpuDevice) (adapter : Adapter) : Bool :=
  !(decide (adapter.info.device_type = DeviceType.Other)) &&
    is_same_type device adapter.info.device_type

/-- Membership test of the fallback bucket: an unclassified adapter. -/
def in_fallback (adapter : Adapter) : Bool :=
  decide (adapter.info.device_type = DeviceType.Other)

/-- The failure modes of `select_adapter` (both `panic!` sites,
`base.rs` lines 125-136 and 189). -/
inductive SelectError where
  | selectionFailure (message : String)
      (adapters adapters_other : List AdapterInfo)
  | noAdapterFound
deriving DecidableEq

/-- The inner `select` function of `select_adapter` (`base.rs` lines 117-143):
index into `adapters`, falling back to `adapters_other`, and panicking with a
diagnostic listing both buckets when both are too short. -/
def select (num : Nat) (error : String)
    (adapters adapters_other : List Adapter) : Except SelectError Adapter :=
  if h : adapters.length ≤ num then
    if h2 : adapters_other.length ≤ num then
      Except.error (SelectError.selectionFailure error
        (adapters.map Adapter.info) (adapters_other.map Adapter.info))
    else Except.ok (adapters_other.get ⟨num, Nat.lt_of_not_le h2⟩)
  else Except.ok (adapters.get ⟨num, Nat.lt_of_not_le h⟩)

/-- The score table of the `BestAvailable` branch (`base.rs` lines 171-178). -/
def score (device_type : DeviceType) : Int :=
  match device_type with
  | DeviceType.DiscreteGpu => 5
  | DeviceType.Other => 4
  | DeviceType.IntegratedGpu => 3
  | DeviceType.VirtualGpu => 2
  | DeviceType.Cpu => 1

/-- The score of one adapter. -/
def adapter_score (adapter : Adapter) : Int :=
  score adapter.info.device_type

/-- One step of the `BestAvailable` fold (`base.rs` lines 169-184): replace
the running best only on a strictly greater score. -/
def ba_step (acc : Option Adapter × Int) (adapter : Adapter) :
    Option Adapter × Int :=
  if adapter_score adapter > acc.2 then (some adapter, adapter_score adapter)
  else acc

/-- The `BestAvailable` scan over the primary bucket (`base.rs` lines
165-191): running strict-max starting from score `-1`. -/
def best_available (adapters : List Adapter) : Option Adapter :=
  (adapters.foldl ba_step (none, -1)).1

/-- `select_adapter` (`base.rs` lines 88-197), with the enumerated adapter
list made an explicit input in place of `instance.enumerate_adapters`. -/
def select_adapter (device : WgpuDevice) (enumerated : List Adapter) :
    Except SelectError Adapter :=
  let bs := buckets device enumerated
  match device with
  | WgpuDevice.DiscreteGpu num =>
      select num "No Discrete GPU device found" bs.1 bs.2
  | WgpuDevice.IntegratedGpu num =>
      select num "No Integrated GPU device found" bs.1 bs.2
  | WgpuDevice.VirtualGpu num =>
      select num "No Virtual GPU device found" bs.1 bs.2
  | WgpuDevice.Cpu => select 0 "No CPU device found" bs.1 bs.2
  | WgpuDevice.BestAvailable =>
      match best_available bs.1 with
      | some adapter => Except.ok adapter
      | none => Except.error SelectError.noAdapterFound

/-- The outcome of `std::env::var("BURN_WGPU_MAX_TASKS")`: present with a
Unicode value, absent (`VarError::NotPresent`), or present but not valid
Unicode (`VarError::NotUnicode`). -/
inductive EnvResult where
  | ok (value : String)
  | notPresent
  | notUnicode
deriving DecidableEq

/-- One decimal digit's value, `none` on a non-digit. -/
def digit_value (c : Char) : Option Nat :=
  if c = '0' then some 0 else if c = '1' then some 1
  else if c = '2' then some 2 else if c = '3' then some 3
  else if c = '4' then some 4 else if c = '5' then some 5
  else if c = '6' then some 6 else if c = '7' then some 7
  else if c = '8' then some 8 else if c = '9' then some 9
  else none

/-- Decimal digits to a number, `none` on the empty string or a non-digit. -/
def parse_digits : List Char → Nat → Option Nat
  | [], acc => some acc
  | c :: rest, acc =>
      match digit_value c with
      | some d => parse_digits rest (acc * 10 + d)
      | none => none

/-- Rust's `str::parse::<usize>`: an optional leading `+`, then one or more
decimal digits, rejecting values that overflow 64 bits. -/
def parse_usize (s : String) : Option Nat :=
  let cs :=
    match s.data with
    | '+' :: rest => rest
    | cs => cs
  match cs with
  | [] => none
  | _ :: _ =>
      match parse_digits cs 0 with
      | some n => if n < 2 ^ 64 then some n else none
      | none => none

/-- The `expect` failure on an unparsable `BURN_WGPU_MAX_TASKS` value
(`base.rs` line 41). -/
inductive ConfigError where
  | invalidMaxTasks (value : String)
deriving DecidableEq

/-- The `max_tasks` computation of `compute_client` (`base.rs` lines 38-43):
a present value is parsed as `usize` (parse failure is fatal); any
`env::var` error — absent or non-Unicode — yields the default `64`. -/
def max_tasks (env : EnvResult) : Except ConfigError Nat :=
  match env with
  | EnvResult.ok value =>
      match parse_usize value with
      | some n => Except.ok n
      | none => Except.error (ConfigError.invalidMaxTasks value)
  | EnvResult.notPresent => Except.ok 64
  | EnvResult.notUnicode => Except.ok 64

/-- `burn_compute::memory_management::DeallocStrategy`, as constructed by
`DeallocStrategy::new_period_tick` (used at `base.rs` line 49). -/
inductive DeallocStrategy where
  | PeriodTick (period : Nat)
deriving DecidableEq

/-- `DeallocStrategy::new_period_tick`. -/
def DeallocStrategy.new_period_tick (period : Nat) : DeallocStrategy :=
  DeallocStrategy.PeriodTick period

/-- `burn_compute::memory_management::SliceStrategy` (used at `base.rs`
line 50); the f32 ratio is embedded as a rational. -/
inductive SliceStrategy where
  | Never
  | Ratio (ratio : ℚ)
deriving DecidableEq

/-- The configuration recorded by `SimpleMemoryManagement::new`
(`base.rs` lines 47-51); the storage argument carries no policy and is
omitted. -/
structure SimpleMemoryManagement where
  dealloc : DeallocStrategy
  slice : SliceStrategy
deriving DecidableEq

/-- The configuration `compute_client`'s init closure passes to
`WgpuServer::new` (`base.rs` lines 45-52): the memory-management policy and
the `max_tasks` bound. -/
structure ServerConfig where
  memory : SimpleMemoryManagement
  max_tasks_bound : Nat
deriving DecidableEq

/-- The configuration computed by `compute_client`'s init closure
(`base.rs` lines 38-52): parse `BURN_WGPU_MAX_TASKS` (fatal on an
unparsable value), then fix dealloc = period tick 1000 and slice
reuse = ratio 0.9. -/
def compute_client_config (env : EnvResult) : Except ConfigError ServerConfig :=
  match max_tasks env with
  | Except.error e => Except.error e
  | Except.ok mt =>
      Except.ok
        { memory :=
            { dealloc := DeallocStrategy.new_period_tick 1000,
              slice := SliceStrategy.Ratio (9 / 10) },
          max_tasks_bound := mt }

/-- Modelled from the spec: the slice-reuse decision of the memory manager
(`burn_compute::memory_management::SimpleMemoryManagement`, not under
`src/`): under `Ratio r`, a free region is reused for a request exactly when
`requested_size / free_region_size ≥ r`. -/
def slice_reuse (strategy : SliceStrategy) (requested free_region : Nat) :
    Bool :=
  match strategy with
  | SliceStrategy.Never => false
  | SliceStrategy.Ratio r =>
      decide ((requested : ℚ) / (free_region : ℚ) ≥ r)

/-- `wgpu::Features`; `Features::empty()` is the empty list. -/
def Features : Type := List String
deriving instance DecidableEq for Features

/-- `wgpu::Features::empty()`. -/
def Features.empty : Features := ([] : List String)

/-- `wgpu::DeviceDescriptor` as built in `select_device`
(`base.rs` lines 68-72). -/
structure DeviceDescriptor where
  label : Option String
  features : Features
  limits : Nat
deriving DecidableEq

/-- The two fatal failure modes of `select_device` (`base.rs` lines 60-86):
adapter selection panics, or the device request fails and the error is
converted to a message carrying the adapter's info and the API error. -/
inductive FatalError where
  | selection (err : SelectError)
  | bootstrap (info : AdapterInfo) (err : String)
deriving DecidableEq

/-- The descriptor `select_device` passes to `request_device`: no label,
empty feature set, exactly the limits the adapter advertises. -/
def bootstrap_descriptor (adapter : Adapter) : DeviceDescriptor :=
  { label := none, features := Features.empty, limits := adapter.limits }

/-- `select_device` (`base.rs` lines 60-86), with the enumerated adapter
list and the `adapter.request_device` capability as explicit inputs; the
device and queue handles are abstract (`Nat`), and the `trace_path`
argument (`None` in the source) is the `Option Unit` argument. -/
def select_device (device : WgpuDevice) (enumerated : List Adapter)
    (request_device :
      Adapter → DeviceDescriptor → Option Unit → Except String (Nat × Nat)) :
    Except FatalError (Nat × Nat × AdapterInfo) :=
  match select_adapter device enumerated with
  | Except.error e => Except.error (FatalError.selection e)
  | Except.ok adapter =>
      match request_device adapter
          { label := none, features := Features.empty,
            limits := adapter.limits } none with
      | Except.ok (d, q) => Except.ok (d, q, adapter.info)
      | Except.error err =>
          Except.error (FatalError.bootstrap adapter.info err)

/-- Modelled from the spec: the process-wide registry behind
`burn_compute::Compute` (`static COMPUTE`, `base.rs` line 22; the registry
implementation is not under `src/`): a map from `WgpuDevice` to a cached
client. -/
structure Registry (C : Type) where
  lookup : WgpuDevice → Option C

/-- The empty registry (`Compute::new()`). -/
def Registry.empty (C : Type) : Registry C := ⟨fun _ => none⟩

/-- Modelled from the spec: `Compute::client` (`COMPUTE.client(&device, init)`,
`base.rs` line 28): return the cached client for the key, or run the init
closure once, cache its client and return it. The returned flag records
whether init ran. Per the spec (§4.5, §5), concurrent calls serialize under
the registry's per-key mutual exclusion, so a process history is a sequence
of these atomic calls. -/
def Registry.client {C : Type} (r : Registry C) (device : WgpuDevice)
    (init : C) : C × Registry C × Bool :=
  match r.lookup device with
  | some c => (c, r, false)
  | none =>
      (init,
        ⟨fun d => if d = device then some init else r.lookup d⟩,
        true)

/-- A process history: each call to `compute_client` supplies a key and the
client its init closure would build; the run threads the registry through
the calls and records, per call, the key, the returned client, and whether
the init closure ran. -/
def run_calls {C : Type} :
    List (WgpuDevice × C) → Registry C →
      List (WgpuDevice × C × Bool) × Registry C
  | [], r => ([], r)
  | (device, init) :: rest, r =>
      let step := r.client device init
      let tail := run_calls rest step.2.1
      ((device, step.1, step.2.2) :: tail.1, tail.2)

/-- The (client, init-ran) outcomes of the calls for one key, in call
order. -/
def outputsFor {C : Type} (device : WgpuDevice)
    (out : List (WgpuDevice × C × Bool)) : List (C × Bool) :=
  (out.filter (fun e => decide (e.1 = device))).map Prod.snd

/-- `select_adapter` viewed as a run inside a process history: the history
argument records earlier selections; the source function reads no mutable
state, so the history is never consulted. -/
def select_adapter_run (_history : List (WgpuDevice × List Adapter))
    (device : WgpuDevice) (enumerated : List Adapter) :
    Except SelectError Adapter :=
  select_adapter device enumerated

/-- A sample unclassified adapter. -/
def adapterOther : Adapter := ⟨⟨DeviceType.Other, "other"⟩, 0⟩

/-- A sample CPU adapter. -/
def adapterCpu : Adapter := ⟨⟨DeviceType.Cpu, "cpu"⟩, 0⟩

/-- A sample integrated-GPU adapter. -/
def adapterIntegrated : Adapter := ⟨⟨DeviceType.IntegratedGpu, "igpu"⟩, 0⟩

/-- A sample discrete-GPU adapter. -/
def adapterDiscrete : Adapter := ⟨⟨DeviceType.DiscreteGpu, "dgpu"⟩, 0⟩

/-! Characterizations of the enumeration loop and of the two selection
algorithms. -/

theorem bucket_foldl (device : WgpuDevice) (l : List Adapter) :
    ∀ acc : List Adapter × List Adapter,
      l.foldl (bucket_step device) acc =
        (acc.1 ++ l.filter (in_primary device), acc.2 ++ l.filter in_fallback) := by
  induction l with
  | nil => intro acc; simp
  | cons a t ih =>
      intro acc
      rw [List.foldl_cons, ih]
      by_cases hO : a.info.device_type = DeviceType.Other
      · simp [bucket_step, in_primary, in_fallback, hO, List.filter_cons]
      · by_cases hS : is_same_type device a.info.device_type
        · simp [bucket_step, in_primary, in_fallback, hO, hS, List.filter_cons]
        · simp [bucket_step, in_primary, in_fallback, hO, hS, List.filter_cons]

/-- The enumeration loop partitions the adapters into the two filters, in
enumeration order. -/
theorem buckets_eq (device : WgpuDevice) (enumerated : List Adapter) :
    buckets device enumerated =
      (enumerated.filter (in_primary device), enumerated.filter in_fallback) := by
  simp [buckets, bucket_foldl]

/-- The inner `select` as the claim's case split: the `num`-th primary
adapter, else the `num`-th fallback adapter, else the diagnostic listing
both buckets. -/
theorem select_eq (num : Nat) (msg : String)
    (adapters adapters_other : List Adapter) :
    select num msg adapters adapters_other =
      if h1 : num < adapters.length then Except.ok (adapters.get ⟨num, h1⟩)
      else if h2 : num < adapters_other.length then
        Except.ok (adapters_other.get ⟨num, h2⟩)
      else
        Except.error (SelectError.selectionFailure msg
          (adapters.map Adapter.info) (adapters_other.map Adapter.info)) := by
  unfold select
  rcases Nat.lt_or_ge num adapters.length with h | h
  · rw [dif_neg (Nat.not_le.mpr h), dif_pos h]
  · rw [dif_pos h, dif_neg (Nat.not_lt.mpr h)]
    rcases Nat.lt_or_ge num adapters_other.length with h2 | h2
    · rw [dif_neg (Nat.not_le.mpr h2), dif_pos h2]
    · rw [dif_pos h2, dif_neg (Nat.not_lt.mpr h2)]

theorem score_pos (device_type : DeviceType) : 0 < score device_type := by
  cases device_type <;> decide

theorem score_le_five (device_type : DeviceType) : score device_type ≤ 5 := by
  cases device_type <;> decide

theorem score_eq_five (device_type : DeviceType) :
    score device_type = 5 ↔ device_type = DeviceType.DiscreteGpu := by
  cases device_type <;> decide

/-- The running strict-max fold seeded with an adapter returns the first
adapter of `a :: l` attaining the maximum score: the list splits around the
result, every earlier adapter scores strictly lower, every later one scores
no higher. -/
theorem ba_loop (l : List Adapter) :
    ∀ a : Adapter,
      ∃ (res : Adapter) (l₁ l₂ : List Adapter),
        l.foldl ba_step (some a, adapter_score a) =
          (some res, adapter_score res) ∧
        a :: l = l₁ ++ res :: l₂ ∧
        (∀ b ∈ l₁, adapter_score b < adapter_score res) ∧
        (∀ b ∈ l₂, adapter_score b ≤ adapter_score res) := by
  induction l with
  | nil =>
      intro a
      exact ⟨a, [], [], rfl, rfl, by simp, by simp⟩
  | cons b t ih =>
      intro a
      rw [List.foldl_cons]
      by_cases h : adapter_score b > adapter_score a
      · have hstep : ba_step (some a, adapter_score a) b =
            (some b, adapter_score b) := by simp [ba_step, h]
        rw [hstep]
        obtain ⟨res, l₁, l₂, hfold, hdec, hpre, hsuf⟩ := ih b
        have hble : adapter_score b ≤ adapter_score res := by
          cases l₁ with
          | nil =>
              simp only [List.nil_append] at hdec
              injection hdec with h1 h2
              exact le_of_eq (congrArg adapter_score h1)
          | cons c0 l₁' =>
              rw [List.cons_append] at hdec
              injection hdec with h1 h2
              exact le_of_lt (hpre b (h1 ▸ List.mem_cons_self c0 l₁'))
        refine ⟨res, a :: l₁, l₂, hfold, by simp [hdec], ?_, hsuf⟩
        intro c hc
        rcases List.mem_cons.mp hc with rfl | hc
        · exact lt_of_lt_of_le h hble
        · exact hpre c hc
      · have hstep : ba_step (some a, adapter_score a) b =
            (some a, adapter_score a) := by simp [ba_step, h]
        rw [hstep]
        obtain ⟨res, l₁, l₂, hfold, hdec, hpre, hsuf⟩ := ih a
        cases l₁ with
        | nil =>
            simp only [List.nil_append] at hdec
            injection hdec with hres ht
            refine ⟨res, [], b :: t, hfold, by simp [hres], by simp, ?_⟩
            intro c hc
            rcases List.mem_cons.mp hc with rfl | hc
            · exact hres ▸ le_of_not_lt h
            · exact hsuf c (ht ▸ hc)
        | cons c0 l₁' =>
            rw [List.cons_append] at hdec
            injection hdec with h1 h2
            have ha : adapter_score a < adapter_score res :=
              hpre a (h1 ▸ List.mem_cons_self c0 l₁')
            refine ⟨res, a :: b :: l₁', l₂, hfold, by simp [h2], ?_, hsuf⟩
            intro c hc
            rcases List.mem_cons.mp hc with rfl | hc
            · exact ha
            · rcases List.mem_cons.mp hc with rfl | hc
              · exact lt_of_le_of_lt (le_of_not_lt h) ha
              · exact hpre c (h1 ▸ List.mem_cons_of_mem c0 hc)

/-- On a non-empty list, the `BestAvailable` scan succeeds and returns the
first adapter attaining the maximum score. -/
theorem best_available_spec (l : List Adapter) (hl : l ≠ []) :
    ∃ (res : Adapter) (l₁ l₂ : List Adapter),
      best_available l = some res ∧
      l = l₁ ++ res :: l₂ ∧
      (∀ b ∈ l₁, adapter_score b < adapter_score res) ∧
      (∀ b ∈ l₂, adapter_score b ≤ adapter_score res) := by
  cases l with
  | nil => exact absurd rfl hl
  | cons c t =>
      have hstep : ba_step (none, -1) c = (some c, adapter_score c) := by
        have hgt : (-1 : Int) < score c.info.device_type :=
          lt_trans (by norm_num) (score_pos c.info.device_type)
        simp [ba_step, adapter_score, hgt]
      obtain ⟨res, l₁, l₂, hfold, hdec, hpre, hsuf⟩ := ba_loop t c
      exact ⟨res, l₁, l₂,
        by simp only [best_available, List.foldl_cons, hstep, hfold],
        hdec, hpre, hsuf⟩

theorem in_primary_ba (a : Adapter) :
    in_primary WgpuDevice.BestAvailable a =
      !(decide (a.info.device_type = DeviceType.Other)) := by
  rcases a with ⟨⟨adt, d⟩, lim⟩
  cases adt <;> rfl

theorem select_adapter_ba_eq (enumerated : List Adapter) :
    select_adapter WgpuDevice.BestAvailable enumerated =
      match best_available
          (enumerated.filter (in_primary WgpuDevice.BestAvailable)) with
      | some a => Except.ok a
      | none => Except.error SelectError.noAdapterFound := by
  simp only [select_adapter, buckets_eq]

/-! Claim theorems. -/

/-- C2: for `DiscreteGpu(i)`, `IntegratedGpu(i)`, `VirtualGpu(i)` (and `Cpu`
with fixed index `0`), selection returns the `i`-th adapter of the primary
bucket filtered to that category; if fewer than `i+1` such adapters exist,
the `i`-th element of the fallback bucket of unclassified adapters; and if
the fallback bucket is also too short, it fails fatally with a diagnostic
enumerating all adapters considered in both buckets. -/
theorem select_indexed_spec (device : WgpuDevice) (dt : DeviceType)
    (i : Nat) (msg : String) (enumerated : List Adapter)
    (h : (device = WgpuDevice.DiscreteGpu i ∧ dt = DeviceType.DiscreteGpu ∧
            msg = "No Discrete GPU device found") ∨
         (device = WgpuDevice.IntegratedGpu i ∧ dt = DeviceType.IntegratedGpu ∧
            msg = "No Integrated GPU device found") ∨
         (device = WgpuDevice.VirtualGpu i ∧ dt = DeviceType.VirtualGpu ∧
            msg = "No Virtual GPU device found") ∨
         (device = WgpuDevice.Cpu ∧ i = 0 ∧ dt = DeviceType.Cpu ∧
            msg = "No CPU device found")) :
    select_adapter device enumerated =
      (if h1 : i <
          (enumerated.filter (fun a => decide (a.info.device_type = dt))).length
       then Except.ok
          ((enumerated.filter (fun a => decide (a.info.device_type = dt))).get
            ⟨i, h1⟩)
       else if h2 : i < (enumerated.filter in_fallback).length then
         Except.ok ((enumerated.filter in_fallback).get ⟨i, h2⟩)
       else
         Except.error (SelectError.selectionFailure msg
          ((enumerated.filter
              (fun a => decide (a.info.device_type = dt))).map Adapter.info)
          ((enumerated.filter in_fallback).map Adapter.info))) := by
  have hp : ∀ dev : WgpuDevice,
      dev = device →
      (∀ a : Adapter, in_primary dev a = decide (a.info.device_type = dt)) →
      enumerated.filter (in_primary dev) =
        enumerated.filter (fun a => decide (a.info.device_type = dt)) :=
    fun dev _ hpt => List.filter_congr (fun a _ => hpt a)
  rcases h with ⟨hd, hdt, hmsg⟩ | ⟨hd, hdt, hmsg⟩ | ⟨hd, hdt, hmsg⟩ |
    ⟨hd, hi, hdt, hmsg⟩ <;> subst_vars <;>
    simp only [select_adapter, buckets_eq] <;>
    [rw [hp (WgpuDevice.DiscreteGpu i) rfl];
     rw [hp (WgpuDevice.IntegratedGpu i) rfl];
     rw [hp (WgpuDevice.VirtualGpu i) rfl];
     rw [hp WgpuDevice.Cpu rfl]] <;>
    first
    | exact select_eq _ _ _ _
    | (intro a; rcases a with ⟨⟨adt, d⟩, lim⟩; cases adt <;> rfl)

/-- Witness for C2: the spec's own example — `DiscreteGpu(0)` with an empty
primary bucket and one unclassified adapter returns that fallback
adapter. -/
theorem select_indexed_spec_witness :
    select_adapter (WgpuDevice.DiscreteGpu 0) [adapterOther] =
      Except.ok adapterOther := by
  have h := select_indexed_spec (WgpuDevice.DiscreteGpu 0)
    DeviceType.DiscreteGpu 0 "No Discrete GPU device found" [adapterOther]
    (Or.inl ⟨rfl, rfl, rfl⟩)
  rw [h]
  decide

/-- C3: under `BestAvailable` the returned adapter is the first (in
enumeration order) whose score is strictly highest among the classified
adapters, under the table DiscreteGpu=5, IntegratedGpu=3, VirtualGpu=2,
Cpu=1, ties keeping the first-seen; in particular, any arrangement of a Cpu,
an IntegratedGpu and a DiscreteGpu adapter yields the DiscreteGpu one. -/
theorem select_best_available_spec (enumerated : List Adapter) :
    (score DeviceType.DiscreteGpu = 5 ∧ score DeviceType.IntegratedGpu = 3 ∧
     score DeviceType.VirtualGpu = 2 ∧ score DeviceType.Cpu = 1) ∧
    (∀ a, select_adapter WgpuDevice.BestAvailable enumerated = Except.ok a →
      ∃ l₁ l₂,
        enumerated.filter
            (fun b => !(decide (b.info.device_type = DeviceType.Other))) =
          l₁ ++ a :: l₂ ∧
        (∀ b ∈ l₁, adapter_score b < adapter_score a) ∧
        (∀ b ∈ l₂, adapter_score b ≤ adapter_score a)) ∧
    (∀ c ig dg : Adapter, enumerated.Perm [c, ig, dg] →
      c.info.device_type = DeviceType.Cpu →
      ig.info.device_type = DeviceType.IntegratedGpu →
      dg.info.device_type = DeviceType.DiscreteGpu →
      select_adapter WgpuDevice.BestAvailable enumerated = Except.ok dg) := by
  have hfil : enumerated.filter (in_primary WgpuDevice.BestAvailable) =
      enumerated.filter
        (fun b => !(decide (b.info.device_type = DeviceType.Other))) :=
    List.filter_congr (fun a _ => in_primary_ba a)
  refine ⟨⟨rfl, rfl, rfl, rfl⟩, ?_, ?_⟩
  · intro a ha
    rw [select_adapter_ba_eq] at ha
    cases hb : best_available
        (enumerated.filter (in_primary WgpuDevice.BestAvailable)) with
    | none => rw [hb] at ha; exact absurd ha (by simp)
    | some res =>
        rw [hb] at ha
        have hres : res = a := by simpa using ha
        subst hres
        have hne : enumerated.filter (in_primary WgpuDevice.BestAvailable) ≠
            [] := by
          intro he
          rw [he] at hb
          exact Option.noConfusion hb
        obtain ⟨res', l₁, l₂, hsome, hdec, hpre, hsuf⟩ :=
          best_available_spec _ hne
        have : res' = res := by rw [hsome] at hb; exact Option.some.inj hb
        subst this
        exact ⟨l₁, l₂, hfil ▸ hdec, hpre, hsuf⟩
  · intro c ig dg hperm hc hig hdg
    have hmem : ∀ b ∈ enumerated,
        in_primary WgpuDevice.BestAvailable b = true := by
      intro b hb
      have hb3 : b ∈ [c, ig, dg] := hperm.mem_iff.mp hb
      simp only [List.mem_cons, List.mem_singleton, List.not_mem_nil,
        or_false] at hb3
      rcases hb3 with rfl | rfl | rfl <;>
        simp [in_primary_ba, hc, hig, hdg]
    have hprim : enumerated.filter (in_primary WgpuDevice.BestAvailable) =
        enumerated := List.filter_eq_self.mpr hmem
    have hne : enumerated ≠ [] := by
      intro he
      subst he
      simpa using hperm.length_eq
    obtain ⟨res, l₁, l₂, hsome, hdec, hpre, hsuf⟩ :=
      best_available_spec enumerated hne
    have hdgmem : dg ∈ enumerated := hperm.mem_iff.mpr (by simp)
    have hscore : adapter_score dg ≤ adapter_score res := by
      have hin : dg ∈ l₁ ++ res :: l₂ := hdec ▸ hdgmem
      rcases List.mem_append.mp hin with h1 | h1
      · exact le_of_lt (hpre dg h1)
      · rcases List.mem_cons.mp h1 with rfl | h1
        · exact le_refl _
        · exact hsuf dg h1
    have h5 : adapter_score res = 5 := by
      refine le_antisymm (score_le_five _) ?_
      calc (5 : Int) = adapter_score dg := by simp [adapter_score, hdg, score]
        _ ≤ adapter_score res := hscore
    have hdt : res.info.device_type = DeviceType.DiscreteGpu :=
      (score_eq_five _).mp h5
    have hresmem : res ∈ enumerated := by
      rw [hdec]
      exact List.mem_append_right l₁ (List.mem_cons_self res l₂)
    have hres3 : res ∈ [c, ig, dg] := hperm.mem_iff.mp hresmem
    simp only [List.mem_cons, List.mem_singleton, List.not_mem_nil,
      or_false] at hres3
    rcases hres3 with rfl | rfl | rfl
    · rw [hc] at hdt; exact absurd hdt (by decide)
    · rw [hig] at hdt; exact absurd hdt (by decide)
    · rw [select_adapter_ba_eq, hprim, hsome]

/-- Witness for C3: the spec's own example
`[Cpu, IntegratedGpu, DiscreteGpu]` yields the DiscreteGpu adapter. -/
theorem select_best_available_spec_witness :
    select_adapter WgpuDevice.BestAvailable
      [adapterCpu, adapterIntegrated, adapterDiscrete] =
      Except.ok adapterDiscrete :=
  (select_best_available_spec
      [adapterCpu, adapterIntegrated, adapterDiscrete]).2.2
    adapterCpu adapterIntegrated adapterDiscrete (List.Perm.refl _)
    rfl rfl rfl

/-- C4 (as stated, refuted): a non-empty enumerated list on which
`BestAvailable` selection nevertheless fails fatally — a single adapter
whose category is unclassified. -/
theorem select_best_available_nonempty_fails :
    ([adapterOther] : List Adapter) ≠ [] ∧
    select_adapter WgpuDevice.BestAvailable [adapterOther] =
      Except.error SelectError.noAdapterFound :=
  ⟨by decide, by decide⟩

/-- C4 (amended): `BestAvailable` selection succeeds exactly when the
enumerated list contains at least one classified (non-`Other`) adapter; it
fails fatally exactly when every enumerated adapter (in particular, when the
list is empty) is unclassified. -/
theorem select_best_available_ok_iff (enumerated : List Adapter) :
    (∃ a, select_adapter WgpuDevice.BestAvailable enumerated = Except.ok a) ↔
    (∃ b ∈ enumerated, b.info.device_type ≠ DeviceType.Other) := by
  constructor
  · rintro ⟨a, ha⟩
    rw [select_adapter_ba_eq] at ha
    cases hb : best_available
        (enumerated.filter (in_primary WgpuDevice.BestAvailable)) with
    | none => rw [hb] at ha; exact absurd ha (by simp)
    | some res =>
        have hne : enumerated.filter (in_primary WgpuDevice.BestAvailable) ≠
            [] := by
          intro he
          rw [he] at hb
          exact Option.noConfusion hb
        have hex : ¬∀ b ∈ enumerated,
            ¬(in_primary WgpuDevice.BestAvailable b = true) :=
          fun hall => hne (List.filter_eq_nil_iff.mpr hall)
        push_neg at hex
        obtain ⟨b, hb1, hb2⟩ := hex
        refine ⟨b, hb1, ?_⟩
        have := in_primary_ba b ▸ hb2
        simpa using this
  · rintro ⟨b, hb, hbt⟩
    have hbp : b ∈ enumerated.filter (in_primary WgpuDevice.BestAvailable) :=
      List.mem_filter.mpr ⟨hb, by simp [in_primary_ba, hbt]⟩
    have hne : enumerated.filter (in_primary WgpuDevice.BestAvailable) ≠
        [] := fun he => by simp [he] at hbp
    obtain ⟨res, l₁, l₂, hsome, _, _, _⟩ := best_available_spec _ hne
    exact ⟨res, by rw [select_adapter_ba_eq, hsome]⟩

/-- C5: the score table does assign 4 to unclassified adapters, but the
enumeration loop has already diverted every unclassified adapter to the
fallback bucket, so `BestAvailable` never scores one: with one unclassified
and one IntegratedGpu adapter the IntegratedGpu adapter is returned, not the
unclassified one. -/
theorem select_best_available_drops_other :
    score DeviceType.Other = 4 ∧
    select_adapter WgpuDevice.BestAvailable [adapterOther, adapterIntegrated] =
      Except.ok adapterIntegrated :=
  ⟨rfl, by decide⟩

/-- C6: `BURN_WGPU_MAX_TASKS` unset yields the default bound 64 and `"8"`
yields 8, and a non-numeric value is fatal — but the non-positive value
`"0"` parses successfully and yields bound 0 instead of failing. -/
theorem max_tasks_parse :
    max_tasks EnvResult.notPresent = Except.ok 64 ∧
    max_tasks (EnvResult.ok "8") = Except.ok 8 ∧
    max_tasks (EnvResult.ok "abc") =
      Except.error (ConfigError.invalidMaxTasks "abc") ∧
    max_tasks (EnvResult.ok "0") = Except.ok 0 :=
  ⟨rfl, by decide, by decide, by decide⟩

/-- C9: adapter selection is a deterministic function of the logical device
and the enumeration order: two runs with the same inputs agree regardless of
the history of earlier selections, and each equals the pure
`select_adapter`. -/
theorem select_adapter_deterministic
    (h₁ h₂ : List (WgpuDevice × List Adapter)) (device : WgpuDevice)
    (enumerated : List Adapter) :
    select_adapter_run h₁ device enumerated =
      select_adapter_run h₂ device enumerated ∧
    select_adapter_run h₁ device enumerated =
      select_adapter device enumerated :=
  ⟨rfl, rfl⟩

/-- C10: a present but non-Unicode `BURN_WGPU_MAX_TASKS` value falls into
the same `Err(_)` arm as an absent variable: the default 64 is used
silently. -/
theorem max_tasks_not_unicode :
    max_tasks EnvResult.notUnicode = Except.ok 64 ∧
    max_tasks EnvResult.notUnicode = max_tasks EnvResult.notPresent :=
  ⟨rfl, rfl⟩

/-- When selection succeeds, `select_device` is the request at the
bootstrap descriptor, with success yielding the adapter's info and failure
converted to a fatal bootstrap error. -/
theorem select_device_ok (device : WgpuDevice) (enumerated : List Adapter)
    (request_device :
      Adapter → DeviceDescriptor → Option Unit → Except String (Nat × Nat))
    (a : Adapter) (hsel : select_adapter device enumerated = Except.ok a) :
    select_device device enumerated request_device =
      match request_device a (bootstrap_descriptor a) none with
      | Except.ok (d, q) => Except.ok (d, q, a.info)
      | Except.error err => Except.error (FatalError.bootstrap a.info err) := by
  unfold select_device
  rw [hsel]
  rfl

/-- C7: `select_device` requests the device and queue with no label, the
empty (default) feature set and exactly the limits the adapter advertises —
it consults the request capability only at that descriptor — and when the
request fails it converts the failure to a fatal error carrying the
adapter's info and the underlying API error. -/
theorem select_device_spec (device : WgpuDevice) (enumerated : List Adapter)
    (request_device :
      Adapter → DeviceDescriptor → Option Unit → Except String (Nat × Nat)) :
    (∀ a : Adapter, (bootstrap_descriptor a).label = none ∧
      (bootstrap_descriptor a).features = Features.empty ∧
      (bootstrap_descriptor a).limits = a.limits) ∧
    (∀ r2 : Adapter → DeviceDescriptor → Option Unit →
        Except String (Nat × Nat),
      (∀ a, request_device a (bootstrap_descriptor a) none =
          r2 a (bootstrap_descriptor a) none) →
      select_device device enumerated request_device =
        select_device device enumerated r2) ∧
    (∀ (a : Adapter) (err : String),
      select_adapter device enumerated = Except.ok a →
      request_device a (bootstrap_descriptor a) none = Except.error err →
      select_device device enumerated request_device =
        Except.error (FatalError.bootstrap a.info err)) := by
  refine ⟨fun a => ⟨rfl, rfl, rfl⟩, ?_, ?_⟩
  · intro r2 hagree
    cases hsel : select_adapter device enumerated with
    | error e => unfold select_device; rw [hsel]
    | ok a =>
        rw [select_device_ok device enumerated request_device a hsel,
          select_device_ok device enumerated r2 a hsel, hagree a]
  · intro a err hsel herr
    rw [select_device_ok device enumerated request_device a hsel, herr]

/-- Witness for C7: a request capability that always fails turns into a
fatal error carrying the selected adapter's info and the API error. -/
theorem select_device_spec_witness :
    select_device WgpuDevice.Cpu [adapterCpu]
        (fun _ _ _ => Except.error "request failed") =
      Except.error (FatalError.bootstrap adapterCpu.info "request failed") :=
  (select_device_spec WgpuDevice.Cpu [adapterCpu]
      (fun _ _ _ => Except.error "request failed")).2.2
    adapterCpu "request failed" (by decide) rfl

/-- C8: every server configuration built by `compute_client`'s init closure
carries the fixed memory-management policy: a periodic reclaim pass every
1000 operations, and slice reuse at ratio 0.9 — a free region is reused
exactly when `requested / free ≥ 9/10`; in particular a free region of size
100 serves a request of 90 but not one of 80. -/
theorem compute_client_memory_config (env : EnvResult) (cfg : ServerConfig)
    (h : compute_client_config env = Except.ok cfg) :
    cfg.memory.dealloc = DeallocStrategy.PeriodTick 1000 ∧
    cfg.memory.slice = SliceStrategy.Ratio (9 / 10) ∧
    slice_reuse cfg.memory.slice 90 100 = true ∧
    slice_reuse cfg.memory.slice 80 100 = false ∧
    (∀ requested free_region : Nat,
      slice_reuse cfg.memory.slice requested free_region = true ↔
        (requested : ℚ) / (free_region : ℚ) ≥ 9 / 10) := by
  have hcfg : cfg.memory =
      { dealloc := DeallocStrategy.new_period_tick 1000,
        slice := SliceStrategy.Ratio (9 / 10) } := by
    unfold compute_client_config at h
    cases hm : max_tasks env with
    | error e => rw [hm] at h; exact absurd h (by simp)
    | ok mt =>
        rw [hm] at h
        have := Except.ok.inj h
        rw [← this]
  refine ⟨by rw [hcfg]; rfl, by rw [hcfg], ?_, ?_, ?_⟩
  · rw [hcfg]
    show slice_reuse (SliceStrategy.Ratio (9 / 10)) 90 100 = true
    simp only [slice_reuse, decide_eq_true_eq]
    norm_num
  · rw [hcfg]
    show slice_reuse (SliceStrategy.Ratio (9 / 10)) 80 100 = false
    simp only [slice_reuse, decide_eq_false_iff_not]
    norm_num
  · intro requested free_region
    rw [hcfg]
    show slice_reuse (SliceStrategy.Ratio (9 / 10)) requested free_region =
        true ↔ _
    simp [slice_reuse]

/-- Witness for C8: the default configuration (variable unset) carries the
period-1000 deallocation pass and the 0.9 slice-reuse ratio, reusing
100-sized free regions for 90-sized requests but not 80-sized ones. -/
theorem compute_client_memory_config_witness :
    slice_reuse (SliceStrategy.Ratio (9 / 10)) 90 100 = true ∧
    slice_reuse (SliceStrategy.Ratio (9 / 10)) 80 100 = false := by
  have h := compute_client_memory_config EnvResult.notPresent
    ⟨{ dealloc := DeallocStrategy.PeriodTick 1000,
       slice := SliceStrategy.Ratio (9 / 10) }, 64⟩ rfl
  exact ⟨h.2.2.1, h.2.2.2.1⟩

/-- A `client` call for a different key leaves a key's cache entry
unchanged. -/
theorem client_lookup_other {C : Type} (r : Registry C)
    (d d' : WgpuDevice) (init : C) (h : d ≠ d') :
    ((r.client d' init).2.1).lookup d = r.lookup d := by
  unfold Registry.client
  cases hl : r.lookup d' with
  | some c => rfl
  | none => simp [h]

/-- Once a key is cached, every later call for it returns the cached client
without running init, and the cache entry survives the whole run. -/
theorem run_cached {C : Type} :
    ∀ (calls : List (WgpuDevice × C)) (r : Registry C) (d : WgpuDevice)
      (c : C), r.lookup d = some c →
      (∀ e ∈ outputsFor d (run_calls calls r).1, e = (c, false)) ∧
      (run_calls calls r).2.lookup d = some c := by
  intro calls
  induction calls with
  | nil =>
      intro r d c hl
      exact ⟨by intro e he; simp [run_calls, outputsFor] at he, hl⟩
  | cons call rest ih =>
      intro r d c hl
      obtain ⟨d₀, init⟩ := call
      by_cases hd : d₀ = d
      · subst hd
        have hstep : r.client d₀ init = (c, r, false) := by
          simp [Registry.client, hl]
        have hrest := ih r d₀ c hl
        constructor
        · intro e he
          simp only [run_calls, hstep, outputsFor, List.filter_cons,
            decide_True, List.map_cons] at he
          rcases List.mem_cons.mp he with rfl | he
          · rfl
          · exact hrest.1 e (by simpa [outputsFor] using he)
        · simpa [run_calls, hstep] using hrest.2
      · have hne : d ≠ d₀ := fun he => hd he.symm
        have hkeep : ((r.client d₀ init).2.1).lookup d = r.lookup d :=
          client_lookup_other r d d₀ init hne
        have hrest := ih (r.client d₀ init).2.1 d c (hkeep.trans hl)
        constructor
        · intro e he
          simp only [run_calls, outputsFor, List.filter_cons] at he
          rw [decide_eq_false hd] at he
          exact hrest.1 e (by simpa [outputsFor] using he)
        · simpa [run_calls] using hrest.2

/-- Over any run from any starting registry, the init closure runs at most
once per key, and every call for one key returns the same client. -/
theorem run_calls_spec {C : Type} :
    ∀ (calls : List (WgpuDevice × C)) (r : Registry C) (d : WgpuDevice),
      ((outputsFor d (run_calls calls r).1).filter (fun e => e.2)).length
        ≤ 1 ∧
      (∀ e1 ∈ outputsFor d (run_calls calls r).1,
        ∀ e2 ∈ outputsFor d (run_calls calls r).1, e1.1 = e2.1) := by
  intro calls
  induction calls with
  | nil =>
      intro r d
      constructor
      · simp [run_calls, outputsFor]
      · intro e1 he1
        simp [run_calls, outputsFor] at he1
  | cons call rest ih =>
      intro r d
      obtain ⟨d₀, init⟩ := call
      by_cases hd : d₀ = d
      · subst hd
        cases hl : r.lookup d₀ with
        | some c =>
            have hstep : r.client d₀ init = (c, r, false) := by
              simp [Registry.client, hl]
            have hall := run_cached rest r d₀ c hl
            have hout : outputsFor d₀ (run_calls ((d₀, init) :: rest) r).1 =
                (c, false) :: outputsFor d₀ (run_calls rest r).1 := by
              simp [run_calls, hstep, outputsFor, List.filter_cons]
            constructor
            · rw [hout]
              have hz : ((outputsFor d₀
                  (run_calls rest r).1).filter (fun e => e.2)) = [] := by
                refine List.filter_eq_nil_iff.mpr ?_
                intro e he
                rw [hall.1 e he]
                simp
              simp [List.filter_cons, hz]
            · intro e1 he1 e2 he2
              rw [hout] at he1 he2
              have h1 : e1 = (c, false) := by
                rcases List.mem_cons.mp he1 with rfl | he1
                · rfl
                · exact hall.1 e1 he1
              have h2 : e2 = (c, false) := by
                rcases List.mem_cons.mp he2 with rfl | he2
                · rfl
                · exact hall.1 e2 he2
              rw [h1, h2]
        | none =>
            have hstep : r.client d₀ init =
                (init, ⟨fun x => if x = d₀ then some init
                  else r.lookup x⟩, true) := by
              simp [Registry.client, hl]
            have hl2 : (Registry.mk (fun x => if x = d₀ then some init
                else r.lookup x) : Registry C).lookup d₀ = some init := by
              simp [Registry.lookup]
            have hall := run_cached rest _ d₀ init hl2
            have hout : outputsFor d₀ (run_calls ((d₀, init) :: rest) r).1 =
                (init, true) :: outputsFor d₀ (run_calls rest
                  (Registry.mk (fun x => if x = d₀ then some init
                    else r.lookup x))).1 := by
              simp [run_calls, hstep, outputsFor, List.filter_cons]
            constructor
            · rw [hout]
              have hz : ((outputsFor d₀ (run_calls rest
                  (Registry.mk (fun x => if x = d₀ then some init
                    else r.lookup x))).1).filter (fun e => e.2)) = [] := by
                refine List.filter_eq_nil_iff.mpr ?_
                intro e he
                rw [hall.1 e he]
                simp
              simp [List.filter_cons, hz]
            · intro e1 he1 e2 he2
              rw [hout] at he1 he2
              have h1 : e1.1 = init := by
                rcases List.mem_cons.mp he1 with rfl | he1
                · rfl
                · rw [hall.1 e1 he1]
              have h2 : e2.1 = init := by
                rcases List.mem_cons.mp he2 with rfl | he2
                · rfl
                · rw [hall.1 e2 he2]
              rw [h1, h2]
      · have hout : outputsFor d (run_calls ((d₀, init) :: rest) r).1 =
            outputsFor d (run_calls rest (r.client d₀ init).2.1).1 := by
          simp [run_calls, outputsFor, List.filter_cons, decide_eq_false hd]
        have := ih (r.client d₀ init).2.1 d
        rw [hout]
        exact this

/-- C1: for every pair of calls through the process-wide registry with the
same `WgpuDevice` key — a process history being any interleaving of the
atomic, mutually-exclusive `client` calls — both calls return the same
client handle, and the initialization closure runs at most once per
distinct key over the whole history. -/
theorem compute_client_single_server {C : Type}
    (calls : List (WgpuDevice × C)) (d : WgpuDevice) :
    ((outputsFor d
        (run_calls calls (Registry.empty C)).1).filter (fun e => e.2)).length
      ≤ 1 ∧
    (∀ e1 ∈ outputsFor d (run_calls calls (Registry.empty C)).1,
      ∀ e2 ∈ outputsFor d (run_calls calls (Registry.empty C)).1,
        e1.1 = e2.1) :=
  run_calls_spec calls (Registry.empty C) d

/-- Witness for C1: two calls for `Cpu` (with init closures that would build
different clients) both return the first call's client, init runs once. -/
theorem compute_client_single_server_witness :
    ((outputsFor WgpuDevice.Cpu
        (run_calls [(WgpuDevice.Cpu, 7), (WgpuDevice.Cpu, 8)]
          (Registry.empty Nat)).1).filter (fun e => e.2)).length ≤ 1 ∧
    ((7 : Nat), true) ∈ outputsFor WgpuDevice.Cpu
        (run_calls [(WgpuDevice.Cpu, 7), (WgpuDevice.Cpu, 8)]
          (Registry.empty Nat)).1 ∧
    ((7 : Nat), false) ∈ outputsFor WgpuDevice.Cpu
        (run_calls [(WgpuDevice.Cpu, 7), (WgpuDevice.Cpu, 8)]
          (Registry.empty Nat)).1 ∧
    (7 : Nat) = 7 :=
  ⟨(compute_client_single_server
      [(WgpuDevice.Cpu, 7), (WgpuDevice.Cpu, 8)] WgpuDevice.Cpu).1,
   by decide, by decide,
   (compute_client_single_server
      [(WgpuDevice.Cpu, 7), (WgpuDevice.Cpu, 8)] WgpuDevice.Cpu).2
     (7, true) (by decide) (7, false) (by decide)⟩

end BurnWgpu
